import Mathlib

/-!
Verification development for the opening-bell digest pipeline.

Shallow embedding of the core components of `src/summarize.py` and
`src/rate_limiter.py`:

* numeric formatting (`fmt_num` and Python `:.2f` / `:+.2f` f-string fields),
* earnings-prompt section rendering (`format_earnings_data`),
* per-stock prompts and summaries (`build_stock_prompt`, `summarize_stock_news`),
* the batched digest assembler (`generate_digest`) with its per-chunk
  fallback path and final `"---"` separator normalization,
* the market-overview generator with its process-lifetime cache
  (`generate_market_summary`),
* the rate limiter (`RateLimiter.wait_if_needed`, `RateLimiter.get_stats`).

Modelling conventions: Python floats are modelled as `ℚ`; Python's `.2f`
rounding (round-half-even on the underlying double) is modelled as exact
round-half-even on the rational value.  Wall-clock time is modelled as a
rational number of seconds; `time.sleep(w)` advances the clock by exactly
`w`.  A fallible model call is a function `String → Option String`
(`none` = the call raised).  A Python `datetime`/`timedelta` is a rational
number of seconds; `timedelta(days=1)` is `86400`.
-/

attribute [local semireducible] Rat.add Rat.sub Rat.mul Rat.inv

/-- Floor of a rational number, computed with integer floor division. -/
def floorQ (q : ℚ) : ℤ := q.num.fdiv (q.den : ℤ)

/-- Round-half-even of a rational to an integer (the rounding used by
Python's fixed-point float formatting). -/
def rhe (q : ℚ) : ℤ :=
  let f := floorQ q
  let r := q - (f : ℚ)
  if r < 1 / 2 then f
  else if 1 / 2 < r then f + 1
  else if f % 2 = 0 then f else f + 1

/-- Two-digit zero-padded rendering of a natural number below 100. -/
def pad2 (n : ℕ) : String := if n < 10 then "0" ++ toString n else toString n

/-- Model of the Python f-string field `{q:.2f}`. -/
def fmt2 (q : ℚ) : String :=
  let a : ℚ := if q < 0 then -q else q
  let n : ℕ := (rhe (a * 100)).toNat
  (if q < 0 then "-" else "") ++ toString (n / 100) ++ "." ++ pad2 (n % 100)

/-- Model of the Python f-string field `{q:+.2f}` (sign always shown). -/
def fmtSigned2 (q : ℚ) : String :=
  let a : ℚ := if q < 0 then -q else q
  let n : ℕ := (rhe (a * 100)).toNat
  (if q < 0 then "-" else "+") ++ toString (n / 100) ++ "." ++ pad2 (n % 100)

/-- Model of `fmt_num` from `src/summarize.py` (inner helper of
`format_earnings_data`).  `none` models Python `None`; the `1e9`/`1e6`
float thresholds are the exact rationals `1000000000` and `1000000`. -/
def fmtNum (val : Option ℚ) (pfx : String) (sfx : String) (isPct : Bool) : String :=
  match val with
  | none => "N/A"
  | some v =>
    if isPct then fmt2 (v * 100) ++ "%"
    else if pfx = "$" ∧ (1000000000 : ℚ) < v then "$" ++ fmt2 (v / 1000000000) ++ "B"
    else if pfx = "$" ∧ (1000000 : ℚ) < v then "$" ++ fmt2 (v / 1000000) ++ "M"
    else pfx ++ fmt2 v ++ sfx

example : fmt2 (5 / 2) = "2.50" := by decide
example : fmtNum (some 2500000000) "$" "" false = "$2.50B" := by decide
example : fmtNum (some (734 / 10000)) "" "" true = "7.34%" := by decide
example : fmtNum none "$" "" false = "N/A" := by decide

/-- EarningsSnapshot: the flat metric mapping handed to
`format_earnings_data`.  Every metric is read with `earnings.get(key)`
(no default), and `None` and a missing key behave identically there, so
each such field is an `Option` (`none` = key absent or value `None`).
The one exception is `recommendation`, read with
`earnings.get('recommendation', 'N/A')`: a *missing* key yields the
default while a key present with value `None` yields `None` (and then
`None.upper()` raises) — so that field is three-state:
`none` = key absent, `some none` = key present with value `None`
(what `fetch_earnings.py` line 88 stores when the provider reports no
`recommendationKey`), `some (some s)` = key present with string `s`.
A value of this structure models a *non-empty* Python dict; the falsy
inputs (`None` or `{}`, rejected by `if not earnings`) are modelled by
`Option Earnings` being `none` at the call sites. -/
structure Earnings where
  revenue : Option ℚ
  revenueYoyGrowth : Option ℚ
  netIncome : Option ℚ
  eps : Option ℚ
  forwardEps : Option ℚ
  earningsGrowth : Option ℚ
  grossMargin : Option ℚ
  operatingMargin : Option ℚ
  profitMargin : Option ℚ
  ebitdaMargin : Option ℚ
  freeCashFlow : Option ℚ
  operatingCashFlow : Option ℚ
  totalCash : Option ℚ
  totalDebt : Option ℚ
  currentRatio : Option ℚ
  quickRatio : Option ℚ
  marketCap : Option ℚ
  peRatio : Option ℚ
  forwardPe : Option ℚ
  psRatio : Option ℚ
  priceToBook : Option ℚ
  evToRevenue : Option ℚ
  evToEbitda : Option ℚ
  revenuePerShare : Option ℚ
  reportedEps : Option ℚ
  estimatedEps : Option ℚ
  surprise : Option ℚ
  targetLowPrice : Option ℚ
  targetHighPrice : Option ℚ
  targetMeanPrice : Option ℚ
  recommendation : Option (Option String)
  earningsDate : Option String
deriving DecidableEq

/-- Python truthiness of an optional float: `None` and `0.0` are falsy. -/
def truthyQ : Option ℚ → Bool
  | none => false
  | some v => v ≠ 0

/-- Python `f"{x}"` on an optional string: `None` renders as `"None"`. -/
def pyStr : Option String → String
  | none => "None"
  | some s => s

/-- The CORE FINANCIALS block of `format_earnings_data`. -/
def coreSection (e : Earnings) : String :=
  "CORE FINANCIALS:\n- Revenue: " ++ fmtNum e.revenue "$" "" false
    ++ " (YoY Growth: " ++ fmtNum e.revenueYoyGrowth "" "" true ++ ")\n- Net Income: "
    ++ fmtNum e.netIncome "$" "" false ++ "\n- EPS: " ++ fmtNum e.eps "$" "" false
    ++ " (Forward: " ++ fmtNum e.forwardEps "$" "" false ++ ")\n- Earnings Growth: "
    ++ fmtNum e.earningsGrowth "" "" true ++ "\n- Gross Margin: "
    ++ fmtNum e.grossMargin "" "" true ++ "\n- Operating Margin: "
    ++ fmtNum e.operatingMargin "" "" true ++ "\n- Net Margin: "
    ++ fmtNum e.profitMargin "" "" true ++ "\n- EBITDA Margin: "
    ++ fmtNum e.ebitdaMargin "" "" true ++ "\n- Free Cash Flow: "
    ++ fmtNum e.freeCashFlow "$" "" false ++ "\n- Operating Cash Flow: "
    ++ fmtNum e.operatingCashFlow "$" "" false

/-- The BALANCE SHEET block of `format_earnings_data`. -/
def balanceSection (e : Earnings) : String :=
  "BALANCE SHEET:\n- Total Cash: " ++ fmtNum e.totalCash "$" "" false
    ++ "\n- Total Debt: " ++ fmtNum e.totalDebt "$" "" false
    ++ "\n- Current Ratio: " ++ fmtNum e.currentRatio "" "" false
    ++ "\n- Quick Ratio: " ++ fmtNum e.quickRatio "" "" false

/-- The VALUATION block of `format_earnings_data`. -/
def valuationSection (e : Earnings) : String :=
  "VALUATION:\n- Market Cap: " ++ fmtNum e.marketCap "$" "" false
    ++ "\n- P/E Ratio: " ++ fmtNum e.peRatio "" "" false
    ++ " (Forward: " ++ fmtNum e.forwardPe "" "" false ++ ")\n- P/S Ratio: "
    ++ fmtNum e.psRatio "" "" false ++ "\n- Price-to-Book: "
    ++ fmtNum e.priceToBook "" "" false ++ "\n- EV/Revenue: "
    ++ fmtNum e.evToRevenue "" "" false ++ "\n- EV/EBITDA: "
    ++ fmtNum e.evToEbitda "" "" false ++ "\n- Revenue per Share: "
    ++ fmtNum e.revenuePerShare "$" "" false

/-- The EARNINGS PERFORMANCE block of `format_earnings_data`
(emitted only when `reported_eps or estimated_eps` is truthy). -/
def perfSection (e : Earnings) : String :=
  "EARNINGS PERFORMANCE:\n- Reported EPS: " ++ fmtNum e.reportedEps "$" "" false
    ++ "\n- Expected EPS: " ++ fmtNum e.estimatedEps "$" "" false
    ++ "\n- Surprise: " ++ fmtNum e.surprise "" "%" false

/-- Python `earnings.get('recommendation', 'N/A').upper()`
(`src/summarize.py` line 83): a missing key yields the default `'N/A'`
(whose `.upper()` is itself); a present string is uppercased; a present
`None` makes `.upper()` raise `AttributeError` (`'NoneType' object has
no attribute 'upper'`), modelled as `none`. -/
def recommendationUpper : Option (Option String) → Option String
  | none => some "N/A"
  | some none => none
  | some (some s) => some s.toUpper

/-- The ANALYST GUIDANCE block of `format_earnings_data` (emitted only
when `target_mean_price` is truthy); `none` when rendering the
recommendation raises `AttributeError`. -/
def guidanceSection (e : Earnings) : Option String :=
  match recommendationUpper e.recommendation with
  | none => none
  | some r =>
    some ("ANALYST GUIDANCE:\n- Target Price Range: " ++ fmtNum e.targetLowPrice "$" "" false
      ++ " - " ++ fmtNum e.targetHighPrice "$" "" false
      ++ "\n- Mean Target: " ++ fmtNum e.targetMeanPrice "$" "" false
      ++ "\n- Recommendation: " ++ r)

/-- The guidance block's text on the non-raising inputs (recommendation
key missing, or present with a string): there
`guidanceSection e = some (guidanceSectionText e)`.  On a present-`None`
recommendation the program raises instead of producing text; this total
variant exists only so the prompt-text functions below stay total — no
theorem asserts program output through it on a raising input (the
raising behavior is tracked by `guidanceSection` / `earningsRaises` and
`generateDigestChecked`). -/
def guidanceSectionText (e : Earnings) : String :=
  "ANALYST GUIDANCE:\n- Target Price Range: " ++ fmtNum e.targetLowPrice "$" "" false
    ++ " - " ++ fmtNum e.targetHighPrice "$" "" false
    ++ "\n- Mean Target: " ++ fmtNum e.targetMeanPrice "$" "" false
    ++ "\n- Recommendation: " ++ (recommendationUpper e.recommendation).getD "N/A" 

/-- The section text `format_earnings_data` returns on the inputs where
it does not raise (`src/summarize.py` lines 35-86): the `sections` list
built by sequential appends, joined with blank lines.  The faithful
fallible entry point is `formatEarningsData` below; this total variant
backs the prompt-text functions. -/
def formatEarningsCore (e : Earnings) : String :=
  let sections := [coreSection e, balanceSection e, valuationSection e]
  let sections :=
    if truthyQ e.reportedEps || truthyQ e.estimatedEps then sections ++ [perfSection e]
    else sections
  let sections :=
    if truthyQ e.targetMeanPrice then sections ++ [guidanceSectionText e]
    else sections
  String.intercalate "\n\n" sections

/-- `format_earnings_data` itself.  The outer `none` models the
`AttributeError` raised while rendering the guidance section's
recommendation (only evaluated when the mean target is truthy);
`some none` models the Python `None` returned for a falsy argument
(`None` / `{}`); `some (some s)` is normal output. -/
def formatEarningsData : Option Earnings → Option (Option String)
  | none => some none
  | some e =>
    let sections := [coreSection e, balanceSection e, valuationSection e]
    let sections :=
      if truthyQ e.reportedEps || truthyQ e.estimatedEps then sections ++ [perfSection e]
      else sections
    if truthyQ e.targetMeanPrice then
      match guidanceSection e with
      | none => none
      | some g => some (some (String.intercalate "\n\n" (sections ++ [g])))
    else some (some (String.intercalate "\n\n" sections))

/-- Does `format_earnings_data` raise on this (non-falsy) earnings dict?
Exactly when the guidance section is emitted (truthy mean target) while
the recommendation key is present with value `None`. -/
def earningsRaises (e : Earnings) : Bool :=
  truthyQ e.targetMeanPrice && decide (e.recommendation = some none)

/-- One news article as consumed by the prompt builders. -/
structure NewsItem where
  title : String
  publisher : String
  published : String
  summary : String
deriving DecidableEq

/-- One stock record (`stock_data` dict) as consumed by `summarize.py`. -/
structure Stock where
  symbol : String
  name : String
  currentPrice : ℚ
  changePercent : ℚ
  news : List NewsItem
  earnings : Option Earnings
deriving DecidableEq

/-- Does building this stock's prompt raise?  `build_stock_prompt` and
`summarize_stock_news` call `format_earnings_data` outside any `try`
(`src/summarize.py` lines 198 and 107), so the `AttributeError` from a
present-`None` recommendation propagates to their callers. -/
def stockRaises (s : Stock) : Bool :=
  match s.earnings with
  | some e => earningsRaises e
  | none => false

/-- The enumerated news block (`news_text` accumulation loop, 1-based). -/
def newsLines : ℕ → List NewsItem → String
  | _, [] => ""
  | i, a :: rest =>
      toString i ++ ". " ++ a.title ++ " (" ++ a.publisher ++ ", " ++ a.published ++ ")\n"
        ++ (if a.summary ≠ "" then "   " ++ a.summary ++ "\n" else "")
        ++ newsLines (i + 1) rest

/-- `news_text` as built by both prompt builders. -/
def newsText (news : List NewsItem) : String := newsLines 1 news

/-- A line of sixty `=` characters (`"="*60`). -/
def eq60 : String := String.mk (List.replicate 60 '=')

/-- A line of sixty `-` characters (`"-"*60`). -/
def dash60 : String := String.mk (List.replicate 60 '-')

/-- The `Stock: ... / Current Price: ... / Change: ...%` lines shared by
the prompt builders. -/
def stockCoreLines (s : Stock) : String :=
  "Stock: " ++ s.name ++ " (" ++ s.symbol ++ ")\nCurrent Price: $"
    ++ fmt2 s.currentPrice ++ "\nChange: " ++ fmtSigned2 s.changePercent ++ "%"

/-- The earnings part appended to a prompt when earnings are present. -/
def earningsPromptPart (e : Earnings) : String :=
  "\nEARNINGS REPORT (Recent):\nEarnings Date: " ++ pyStr e.earningsDate
    ++ "\n\n" ++ formatEarningsCore e

/-- The news part appended to a prompt when news is present. -/
def newsPromptPart (news : List NewsItem) : String :=
  "\nRecent News:\n" ++ newsText news

/-- The earnings-aware Focus block. -/
def focusEarnings : String :=
  "\nFocus on:\n1. Key earnings metrics and whether they beat/missed expectations\n2. Most important financial trends (margins, growth, cash position)\n3. How the market reacted and why\n4. Critical news developments if any\n\nBe analytical and data-driven. Highlight the most important numbers."

/-- The news-only Focus block. -/
def focusNews : String :=
  "\nFocus on:\n1. The most important news developments\n2. How they relate to the price movement\n3. What investors should watch for\n\nBe concise, factual, and actionable. No fluff."

/-- `build_stock_prompt` (`src/summarize.py` lines 188-255): the per-stock
prompt body used inside a batch prompt. -/
def buildStockPrompt (s : Stock) : String :=
  if s.news ≠ [] ∨ s.earnings.isSome then
    String.intercalate "\n"
      ([stockCoreLines s]
        ++ (match s.earnings with
            | some e => [earningsPromptPart e]
            | none => [])
        ++ (if s.news ≠ [] then [newsPromptPart s.news] else [])
        ++ [if s.earnings.isSome then focusEarnings else focusNews])
  else
    stockCoreLines s
      ++ "\n\nNo news articles or earnings reports were published recently for this stock.\n\nCover:\n1. The price movement and what it suggests\n2. Whether this aligns with broader market trends\n3. Any technical observations worth noting\n\nBe concise and factual. Mention that no news was available."

/-- The prompt built inside `summarize_stock_news` (lines 110-171):
`build_stock_prompt`'s logic with the analyst preamble and the
`Provide a 3-4 sentence summary...` instruction. -/
def stockNewsPrompt (s : Stock) : String :=
  if s.news ≠ [] ∨ s.earnings.isSome then
    String.intercalate "\n"
      (["You are a financial analyst providing daily stock updates.\n\n" ++ stockCoreLines s]
        ++ (match s.earnings with
            | some e => [earningsPromptPart e]
            | none => [])
        ++ (if s.news ≠ [] then [newsPromptPart s.news] else [])
        ++ ["\nProvide a 3-4 sentence summary. DO NOT include any preamble like \"Here\x27s your update\" or \"Let me summarize\". Start directly with the key information."]
        ++ [if s.earnings.isSome then focusEarnings else focusNews])
  else
    "You are a financial analyst providing daily stock updates.\n\n" ++ stockCoreLines s
      ++ "\n\nNo news articles or earnings reports were published recently for this stock.\n\nProvide a 3-4 sentence summary analyzing the stock\x27s performance. DO NOT include any preamble. Start directly with analysis. Cover:\n1. The price movement and what it suggests\n2. Whether this aligns with broader market trends\n3. Any technical observations worth noting\n\nBe concise and factual. Mention that no news was available."

/-- The `**Name (SYMBOL)**: $price (±change%)` header line that
`summarize_stock_news` places above each stock's text. -/
def stockHeader (s : Stock) : String :=
  "**" ++ s.name ++ " (" ++ s.symbol ++ ")**: $" ++ fmt2 s.currentPrice
    ++ " (" ++ fmtSigned2 s.changePercent ++ "%)"

/-- `summarize_stock_news` (lines 88-186): one admission + one model call;
the except-branch substitutes the fixed error placeholder under the same
stock header.  Returns the output text and the number of
(quota-admission, model-call) pairs performed (always 1). -/
def summarizeStockNews (gen : String → Option String) (s : Stock) : String × ℕ :=
  match gen (stockNewsPrompt s) with
  | some txt => (stockHeader s ++ "\n\n" ++ txt ++ "\n", 1)
  | none => (stockHeader s ++ "\n\nError generating summary.\n", 1)

/-- The consecutive slices `stocks_data[i:i+batch_size]` produced by
`for i in range(0, len(stocks_data), batch_size)`.  A zero step is never
reached here (the source would raise `ValueError`; `generateDigest`
returns `none` in that case before chunking). -/
def chunkList {α : Type} (bs : ℕ) : List α → List (List α)
  | [] => []
  | x :: rest =>
    if _h : bs = 0 then []
    else (x :: rest).take bs :: chunkList bs ((x :: rest).drop bs)
termination_by xs => xs.length
decreasing_by
  simp only [List.length_drop, List.length_cons]
  omega

/-- The fixed instruction preamble of a batch prompt (lines 391-409). -/
def batchPreamble : String :=
  "You are a financial analyst providing daily stock updates.\n\nFor EACH stock below, provide a 3-4 sentence summary. DO NOT include any preamble like \"Here\x27s your update\" or \"Let me summarize\". Start directly with the key information.\n\nFormat EACH stock exactly as:\n\n**[Company Name] ([SYMBOL])**: $[price] ([+/-]X.XX%)\n\n[Your 3-4 sentence analysis]\n\n---\n\nIMPORTANT: Add \"---\" separator after each stock EXCEPT the last one. The last stock should have NO separator after it.\n\nSTOCKS TO ANALYZE:\n\n"
    ++ eq60 ++ "\n\n"

/-- The combined prompt for one chunk: preamble followed by each member's
`build_stock_prompt` body and a `"="*60` rule, joined with newlines. -/
def batchPrompt (c : List Stock) : String :=
  batchPreamble
    ++ String.intercalate "\n" (c.map (fun s => buildStockPrompt s ++ "\n\n" ++ eq60))

/-- The block appended to `all_summaries` for one stock on the fallback
path: its individual summary followed by a dashed rule. -/
def fallbackBlock (gen : String → Option String) (s : Stock) : String :=
  (summarizeStockNews gen s).1 ++ "\n" ++ dash60 ++ "\n"

/-- The blocks one chunk contributes to `all_summaries`: the raw batch
response on success, otherwise one fallback block per stock in order. -/
def chunkBlocks (gen : String → Option String) (c : List Stock) : List String :=
  match gen (batchPrompt c) with
  | some txt => [txt]
  | none => c.map (fallbackBlock gen)

/-- The stocks each block of `chunkBlocks` is responsible for presenting,
in the order they are given to the model (batch path) or processed
(fallback path). -/
def blockCoverage (gen : String → Option String) (c : List Stock) : List (List Stock) :=
  match gen (batchPrompt c) with
  | some _ => [c]
  | none => c.map (fun s => [s])

/-- Number of (quota-admission, model-call) pairs one chunk causes:
one for the batch attempt, plus one per stock if it degrades. -/
def chunkCalls (gen : String → Option String) (c : List Stock) : ℕ :=
  match gen (batchPrompt c) with
  | some _ => 1
  | none => 1 + (c.map (fun s => (summarizeStockNews gen s).2)).sum

/-- The whole `for i in range(...)` loop: chunks processed strictly in
index order, each appending its blocks to `all_summaries`. -/
def processBatches (gen : String → Option String) (chunks : List (List Stock)) : List String :=
  chunks.flatMap (chunkBlocks gen)

/-- Does `pat` start the list?  (Self-contained model of `isPrefixOf`.) -/
def startsWithL : List Char → List Char → Bool
  | [], _ => true
  | _ :: _, [] => false
  | p :: ps, c :: cs => p = c && startsWithL ps cs

/-- Does `pat` occur as a contiguous sublist? -/
def containsL (pat : List Char) : List Char → Bool
  | [] => startsWithL pat []
  | c :: rest => startsWithL pat (c :: rest) || containsL pat rest

/-- Python `str.replace`: replace every non-overlapping occurrence of
`pat`, scanning left to right. -/
def replaceAllL (pat repl : List Char) : List Char → List Char
  | [] => []
  | c :: rest =>
    if _h : pat ≠ [] ∧ startsWithL pat (c :: rest) then
      repl ++ replaceAllL pat repl ((c :: rest).drop pat.length)
    else
      c :: replaceAllL pat repl rest
termination_by s => s.length
decreasing_by
  · have hp : 0 < pat.length := List.length_pos.mpr _h.1
    simp only [List.length_drop, List.length_cons]
    omega
  · simp

/-- The separator pattern `"---\n\n**"` of the final `digest.replace`. -/
def sepPat : List Char := "---\n\n**".data

/-- Its replacement `"-"*60 ++ "\n\n**"`. -/
def sepRepl : List Char := (dash60 ++ "\n\n**").data

/-- The final normalization pass
`digest.replace("---\n\n**", "-"*60 + "\n\n**")`. -/
def normalizeSep (s : String) : String :=
  String.mk (replaceAllL sepPat sepRepl s.data)

/-- The cached market overview value: three index percent-changes plus
the generated summary text. -/
structure MarketSummary where
  spyChange : ℚ
  qqqChange : ℚ
  diaChange : ℚ
  summary : String
deriving DecidableEq

/-- `((last - prev) / prev) * 100`, the index change formula. -/
def pctChange (prev last : ℚ) : ℚ := (last - prev) / prev * 100

/-- Python `str.strip()`: drop leading and trailing whitespace.
(`String.trim` matches this but is not kernel-reducible, so the model
uses an explicit character-list version.) -/
def pyStrip (s : String) : String :=
  String.mk (((s.data.dropWhile Char.isWhitespace).reverse.dropWhile
    Char.isWhitespace).reverse)

/-- The macro prompt of `generate_market_summary` (lines 288-300). -/
def marketPrompt (spy qqq dia : ℚ) : String :=
  "You are a financial analyst providing a brief market overview.\n\nToday\x27s Market Performance:\n- S&P 500: "
    ++ fmtSigned2 spy ++ "%\n- Nasdaq: " ++ fmtSigned2 qqq ++ "%\n- Dow Jones: "
    ++ fmtSigned2 dia ++ "%\n\nProvide a concise 2-3 sentence summary of the overall market environment. Focus on:\n1. The general market direction and sentiment\n2. Any notable sector trends if obvious from the indices\n3. Keep it high-level and factual\n\nDO NOT use a preamble. Start directly with the market analysis."

/-- Result of one `generate_market_summary` call: returned value, cache
afterwards, and the numbers of model calls and quota admissions. -/
structure MSResult where
  value : Option MarketSummary
  cache : Option MarketSummary
  modelCalls : ℕ
  quotaUses : ℕ
deriving DecidableEq

/-- `generate_market_summary` (lines 257-319).  `fetch` supplies the two
most recent closes `(prev, last)` for SPY, QQQ and DIA; `none` models any
fetch failure or an empty history (both end in `return None` with no
model call).  A populated cache short-circuits everything. -/
def generateMarketSummary (gen : String → Option String)
    (fetch : Option ((ℚ × ℚ) × (ℚ × ℚ) × (ℚ × ℚ)))
    (cache : Option MarketSummary) : MSResult :=
  match cache with
  | some v => ⟨some v, some v, 0, 0⟩
  | none =>
    match fetch with
    | none => ⟨none, none, 0, 0⟩
    | some ((sp, sl), (qp, ql), (dp, dl)) =>
      let spy := pctChange sp sl
      let qqq := pctChange qp ql
      let dia := pctChange dp dl
      match gen (marketPrompt spy qqq dia) with
      | none => ⟨none, none, 1, 1⟩
      | some txt =>
        let ms : MarketSummary := ⟨spy, qqq, dia, pyStrip txt⟩
        ⟨some ms, some ms, 1, 1⟩

/-- The time-of-day greeting with optional personalization. -/
def greetingFor (hour : ℕ) (userName : Option String) : String :=
  let g := if hour < 12 then "Good morning"
           else if hour < 17 then "Good afternoon"
           else "Good evening"
  match userName with
  | some n => g ++ ", " ++ n ++ "!"
  | none => g ++ "!"

/-- `digest_header` (lines 356-380): title, greeting, rules, and the
market-overview section when available, joined with newlines. -/
def digestHeader (dateStr : String) (hour : ℕ) (userName : Option String)
    (market : Option MarketSummary) : String :=
  String.intercalate "\n"
    (["**Daily Stock Digest - " ++ dateStr ++ "**", "", greetingFor hour userName, "",
      eq60, ""]
      ++ (match market with
          | some m =>
            ["**Market Overview**", "",
             "**Major Indices:** S&P 500: " ++ fmtSigned2 m.spyChange ++ "% | Nasdaq: "
               ++ fmtSigned2 m.qqqChange ++ "% | Dow Jones: " ++ fmtSigned2 m.diaChange ++ "%",
             "", m.summary, ""]
          | none => [])
      ++ [eq60, ""])

/-- Result of one `generate_digest` call. -/
structure DigestResult where
  text : String
  cache : Option MarketSummary
  modelCalls : ℕ
  quotaUses : ℕ
deriving DecidableEq

/-- `generate_digest` (lines 321-438).  `hour` and `dateStr` stand for the
`datetime.now()` readings; `gen` is the model; `fetch`/`cache` feed the
market overview.  `none` models the `ValueError` that `range(0, n, 0)`
raises for a zero `batch_size` on a non-empty list. -/
def generateDigest (gen : String → Option String)
    (fetch : Option ((ℚ × ℚ) × (ℚ × ℚ) × (ℚ × ℚ)))
    (cache : Option MarketSummary) (hour : ℕ) (dateStr : String)
    (stocks : List Stock) (batchSize : ℕ) (userName : Option String) :
    Option DigestResult :=
  if stocks = [] then some ⟨"", cache, 0, 0⟩
  else if batchSize = 0 then none
  else
    let ms := generateMarketSummary gen fetch cache
    let chunks := chunkList batchSize stocks
    let raw := digestHeader dateStr hour userName ms.value
      ++ String.intercalate "\n\n" (processBatches gen chunks)
    some ⟨normalizeSep raw, ms.cache,
      ms.modelCalls + (chunks.map (chunkCalls gen)).sum,
      ms.quotaUses + (chunks.map (chunkCalls gen)).sum⟩

/-- The returned value of `generate_digest` with escaping exceptions
tracked: `none` models the `ValueError` from `range(0, n, 0)` on a
non-empty list with zero `batch_size`, and the `AttributeError` that
escapes when some record's prompt construction raises — the chunk
prompts are built at `src/summarize.py` line 414, *outside* the `try`
beginning at line 419 (and the fallback's `summarize_stock_news` builds
its prompt at line 107, outside its `try` at line 173), so the exception
passes `generate_digest`'s boundary before any recovery.  On inputs that
raise neither, the call returns exactly `generateDigest`'s result. -/
def generateDigestChecked (gen : String → Option String)
    (fetch : Option ((ℚ × ℚ) × (ℚ × ℚ) × (ℚ × ℚ)))
    (cache : Option MarketSummary) (hour : ℕ) (dateStr : String)
    (stocks : List Stock) (batchSize : ℕ) (userName : Option String) :
    Option DigestResult :=
  if stocks = [] then some ⟨"", cache, 0, 0⟩
  else if batchSize = 0 then none
  else if stocks.any stockRaises then none
  else generateDigest gen fetch cache hour dateStr stocks batchSize userName

/-- Rate limiter configuration (`rpm`, `rpd` constructor arguments). -/
structure RLConfig where
  rpm : ℕ
  rpd : ℕ
deriving DecidableEq

/-- The mutable state of a `RateLimiter`: the timestamp deque (oldest
first), the daily counter, and the daily reset deadline.  Times are
rational seconds. -/
structure QuotaState where
  requestTimes : List ℚ
  dailyCount : ℕ
  dailyResetTime : ℚ
deriving DecidableEq

/-- The freshly constructed state (`__init__` at construction time `t`). -/
def initialQuotaState (t : ℚ) : QuotaState := ⟨[], 0, t + 86400⟩

/-- `while self.request_times and self.request_times[0] < cutoff:
self.request_times.popleft()` — pop strictly-older entries from the
front. -/
def pruneWindow (cutoff : ℚ) (l : List ℚ) : List ℚ :=
  l.dropWhile (fun t => decide (t < cutoff))

/-- The daily counter after the step-1 conditional reset
(`if now >= self.daily_reset_time: self.daily_count = 0`). -/
def countAfterReset (st : QuotaState) (t0 : ℚ) : ℕ :=
  if st.dailyResetTime ≤ t0 then 0 else st.dailyCount

/-- The window as pruned against the entry time (`one_minute_ago`). -/
def entryWindow (st : QuotaState) (t0 : ℚ) : List ℚ :=
  pruneWindow (t0 - 60) st.requestTimes

/-- Outcome of one `wait_if_needed` call: the state afterwards, the wall
clock when the call returns, and the daily-limit / per-minute sleep
durations. -/
structure WaitResult where
  state : QuotaState
  endTime : ℚ
  dailyWait : ℚ
  minuteWait : ℚ
deriving DecidableEq

/-- `RateLimiter.wait_if_needed` (`src/rate_limiter.py` lines 33-71),
entered at wall-clock time `t0`.  The local Python variable `now` holds
`t0` throughout steps 1-4 and is refreshed by `datetime.now()` only after
the per-minute sleep — in particular, after a daily-limit sleep the
*stale* `t0` is what gets pruned against and appended.  `none` models the
`IndexError` from `self.request_times[0]` when the per-minute branch is
entered with an empty deque (possible whenever `rpm <= 1`). -/
def waitIfNeeded (cfg : RLConfig) (st : QuotaState) (t0 : ℚ) : Option WaitResult :=
  let count1 := countAfterReset st t0
  let reset1 := if st.dailyResetTime ≤ t0 then t0 + 86400 else st.dailyResetTime
  let dWait := if cfg.rpd ≤ count1 then reset1 - t0 else 0
  let real1 := t0 + dWait
  let count2 := if cfg.rpd ≤ count1 then 0 else count1
  let reset2 := if cfg.rpd ≤ count1 then real1 + 86400 else reset1
  let window1 := entryWindow st t0
  if cfg.rpm - 1 ≤ window1.length then
    match window1 with
    | [] => none
    | oldest :: _ =>
      let w := 60 - (t0 - oldest)
      if 0 < w then
        let endT := real1 + w
        let window2 := pruneWindow (endT - 60) window1
        some ⟨⟨window2 ++ [endT], count2 + 1, reset2⟩, endT, dWait, w⟩
      else
        some ⟨⟨window1 ++ [t0], count2 + 1, reset2⟩, real1, dWait, 0⟩
  else
    some ⟨⟨window1 ++ [t0], count2 + 1, reset2⟩, real1, dWait, 0⟩

/-- The dict returned by `RateLimiter.get_stats`. -/
structure RLStats where
  requestsLastMinute : ℕ
  requestsToday : ℕ
  dailyLimit : ℕ
  perMinuteLimit : ℕ
deriving DecidableEq

/-- `RateLimiter.get_stats` (lines 73-86): counts the timestamps strictly
newer than `now - 60` with a generator expression and returns the stats
dict.  The method never assigns to `self`; the state component of the
result is returned alongside to make that frame property explicit. -/
def getStats (cfg : RLConfig) (st : QuotaState) (now : ℚ) : RLStats × QuotaState :=
  (⟨(st.requestTimes.filter (fun t => decide (now - 60 < t))).length,
    st.dailyCount, cfg.rpd, cfg.rpm⟩, st)

/-- An earnings dict that is non-empty but has none of the consumed keys
(e.g. only unrelated keys), so every rendered metric is absent. -/
def emptyEarnings : Earnings :=
  ⟨none, none, none, none, none, none, none, none, none, none, none, none,
   none, none, none, none, none, none, none, none, none, none, none, none,
   none, none, none, none, none, none, none, none⟩

/-- Concrete stock records for witness instantiations. -/
def stockA : Stock := ⟨"AAA", "Alpha Corp", 10, 5 / 4, [], none⟩

def stockB : Stock := ⟨"BBB", "Beta Inc", 20, -(3 / 2), [], none⟩

def stockC : Stock := ⟨"CCC", "Gamma LLC", 30, 0, [], none⟩

/-- A model oracle whose every call raises. -/
def genNone : String → Option String := fun _ => none

/-- A model oracle that always answers with a fixed short text. -/
def genUp : String → Option String := fun _ => some "Market up."

/-- Concrete two-day closes for the three indices (SPY, QQQ, DIA). -/
def fetchW : Option ((ℚ × ℚ) × (ℚ × ℚ) × (ℚ × ℚ)) :=
  some ((100, 101), (200, 202), (300, 303))

/-- The market summary produced from `fetchW` and `genUp`. -/
def msUp : MarketSummary := ⟨1, 1, 1, "Market up."⟩

/-- An earnings dict as `fetch_earnings.py` builds it when the provider
reports a mean target price but no `recommendationKey`: line 88 stores
`info.get('recommendationKey')` verbatim, so the `recommendation` key is
present with value `None` while `target_mean_price` is truthy. -/
def eCrash : Earnings :=
  ⟨none, none, none, none, none, none, none, none, none, none, none, none,
   none, none, none, none, none, none, none, none, none, none, none, none,
   none, none, none, none, none, some 100, some none, none⟩

/-- A stock record carrying `eCrash`, on which prompt construction
raises `AttributeError`. -/
def stockCrash : Stock := ⟨"ZZZ", "Zeta Corp", 10, 0, [], some eCrash⟩

theorem flatten_map_singleton {α : Type} (l : List α) :
    (l.map (fun a => [a])).flatten = l := by
  induction l with
  | nil => rfl
  | cons x rest ih => simp [ih]

theorem chunkList_nil {α : Type} (bs : ℕ) : chunkList bs ([] : List α) = [] := by
  simp [chunkList]

theorem chunkList_cons {α : Type} {bs : ℕ} (hbs : bs ≠ 0) (x : α) (rest : List α) :
    chunkList bs (x :: rest)
      = (x :: rest).take bs :: chunkList bs ((x :: rest).drop bs) := by
  rw [chunkList]
  simp [hbs]

theorem chunkList_flatten {α : Type} (bs : ℕ) (hbs : 0 < bs) (xs : List α) :
    (chunkList bs xs).flatten = xs := by
  have key : ∀ (n : ℕ) (ys : List α), ys.length ≤ n → (chunkList bs ys).flatten = ys := by
    intro n
    induction n with
    | zero =>
      intro ys hy
      have hnil : ys = [] := List.length_eq_zero.mp (Nat.le_zero.mp hy)
      subst hnil
      simp [chunkList_nil]
    | succ n ih =>
      intro ys hy
      cases ys with
      | nil => simp [chunkList_nil]
      | cons y rest =>
        simp only [List.length_cons] at hy
        rw [chunkList_cons (Nat.pos_iff_ne_zero.mp hbs), List.flatten_cons,
          ih ((y :: rest).drop bs) (by simp only [List.length_drop, List.length_cons]; omega),
          List.take_append_drop]
  exact key xs.length xs le_rfl

theorem chunkList_getElem? {α : Type} (bs : ℕ) (hbs : 0 < bs) (xs : List α) (i : ℕ) :
    (chunkList bs xs)[i]?
      = if i * bs < xs.length then some ((xs.drop (i * bs)).take bs) else none := by
  have key : ∀ (n : ℕ) (ys : List α) (j : ℕ), ys.length ≤ n →
      (chunkList bs ys)[j]?
        = if j * bs < ys.length then some ((ys.drop (j * bs)).take bs) else none := by
    intro n
    induction n with
    | zero =>
      intro ys j hy
      have hnil : ys = [] := List.length_eq_zero.mp (Nat.le_zero.mp hy)
      subst hnil
      simp [chunkList_nil]
    | succ n ih =>
      intro ys j hy
      cases ys with
      | nil => simp [chunkList_nil]
      | cons y rest =>
        simp only [List.length_cons] at hy
        rw [chunkList_cons (Nat.pos_iff_ne_zero.mp hbs)]
        cases j with
        | zero => simp
        | succ j =>
          rw [List.getElem?_cons_succ,
            ih ((y :: rest).drop bs) j (by simp only [List.length_drop, List.length_cons]; omega)]
          have hsm : (j + 1) * bs = j * bs + bs := Nat.succ_mul j bs
          have hdd : ((y :: rest).drop bs).drop (j * bs) = (y :: rest).drop ((j + 1) * bs) := by
            rw [List.drop_drop, hsm, Nat.add_comm]
          rw [hdd]
          simp only [List.length_drop, List.length_cons]
          by_cases hlt : j * bs < rest.length + 1 - bs
          · rw [if_pos hlt, if_pos (by omega)]
          · rw [if_neg hlt, if_neg (by omega)]
  exact key xs.length xs i le_rfl

theorem blockCoverage_flatten_eq (gen : String → Option String) (c : List Stock) :
    (blockCoverage gen c).flatten = c := by
  unfold blockCoverage
  cases gen (batchPrompt c) with
  | none => simp [flatten_map_singleton]
  | some t => simp

theorem coverage_length_eq (gen : String → Option String) (c : List Stock) :
    (blockCoverage gen c).length = (chunkBlocks gen c).length := by
  unfold blockCoverage chunkBlocks
  cases gen (batchPrompt c) with
  | none => simp
  | some t => simp

theorem flatMap_coverage_flatten (gen : String → Option String)
    (chunks : List (List Stock)) :
    ((chunks.flatMap (blockCoverage gen))).flatten = chunks.flatten := by
  induction chunks with
  | nil => rfl
  | cons c rest ih =>
    simp only [List.flatMap_cons, List.flatten_append, List.flatten_cons, ih,
      blockCoverage_flatten_eq]

/-- C1: for every stock list and positive `batch_size`, `generate_digest`
partitions the input into consecutive chunks, chunk `i` being exactly
`stocks_data[i*batch_size : (i+1)*batch_size]`; and the blocks appended
to `all_summaries` cover the stocks in exactly the input order — each
chunk contributes one block covering the whole chunk (batch success) or
one block per stock in chunk order (fallback), chunks strictly in index
order — so the concatenated digest body presents the stocks' sections in
the input's relative order regardless of batch boundaries and of which
chunks degrade. -/
theorem digest_batching_partitions_and_preserves_order
    (bs : ℕ) (stocks : List Stock) (gen : String → Option String) (hbs : 0 < bs) :
    (chunkList bs stocks).flatten = stocks ∧
    (∀ i : ℕ, (chunkList bs stocks)[i]?
      = if i * bs < stocks.length then some ((stocks.drop (i * bs)).take bs) else none) ∧
    ((chunkList bs stocks).flatMap (blockCoverage gen)).flatten = stocks ∧
    (∀ c : List Stock, (blockCoverage gen c).length = (chunkBlocks gen c).length) ∧
    processBatches gen (chunkList bs stocks)
      = (chunkList bs stocks).flatMap (chunkBlocks gen) := by
  refine ⟨chunkList_flatten bs hbs stocks, fun i => chunkList_getElem? bs hbs stocks i,
    ?_, fun c => coverage_length_eq gen c, rfl⟩
  rw [flatMap_coverage_flatten, chunkList_flatten bs hbs stocks]

theorem digest_batching_partitions_witness :
    (chunkList 2 [stockA, stockB, stockC]).flatten = [stockA, stockB, stockC] ∧
    (∀ i : ℕ, (chunkList 2 [stockA, stockB, stockC])[i]?
      = if i * 2 < [stockA, stockB, stockC].length
        then some (([stockA, stockB, stockC].drop (i * 2)).take 2) else none) ∧
    ((chunkList 2 [stockA, stockB, stockC]).flatMap (blockCoverage genNone)).flatten
      = [stockA, stockB, stockC] ∧
    (∀ c : List Stock, (blockCoverage genNone c).length = (chunkBlocks genNone c).length) ∧
    processBatches genNone (chunkList 2 [stockA, stockB, stockC])
      = (chunkList 2 [stockA, stockB, stockC]).flatMap (chunkBlocks genNone) :=
  digest_batching_partitions_and_preserves_order 2 [stockA, stockB, stockC] genNone
    (by decide)

theorem generateDigest_total (gen : String → Option String)
    (fetch : Option ((ℚ × ℚ) × (ℚ × ℚ) × (ℚ × ℚ))) (cache : Option MarketSummary)
    (hour : ℕ) (dateStr : String) (stocks : List Stock) (bs : ℕ)
    (userName : Option String) (hbs : 0 < bs) :
    (generateDigest gen fetch cache hour dateStr stocks bs userName).isSome := by
  unfold generateDigest
  by_cases hs : stocks = []
  · simp [hs]
  · simp [hs, Nat.pos_iff_ne_zero.mp hbs]

/-- C2 (amended): when the combined model call for a chunk fails, every
record of the chunk is retried with exactly one individual model call
each, in original order; an individual failure yields that stock's block
being the fixed `Error generating summary.` placeholder under that
stock's own header, and the other records are still processed.  A
complete digest string is still returned provided no record's earnings
dict carries a truthy mean target price together with a present-`None`
recommendation: on such a record prompt construction raises
`AttributeError` before the chunk's `try`, past `generate_digest`'s
boundary (see the counterexample), so totality holds only on the
non-raising inputs — there, for every model oracle, no model-call
failure escapes. -/
theorem digest_fallback_isolates_failures
    (gen : String → Option String) (c : List Stock)
    (hfail : gen (batchPrompt c) = none) :
    chunkBlocks gen c = c.map (fallbackBlock gen) ∧
    (chunkBlocks gen c).length = c.length ∧
    (∀ s ∈ c, gen (stockNewsPrompt s) = none →
      fallbackBlock gen s
        = (stockHeader s ++ "\n\nError generating summary.\n") ++ "\n" ++ dash60 ++ "\n") ∧
    (∀ s ∈ c, (summarizeStockNews gen s).2 = 1) ∧
    (∀ fetch cache hour dateStr stocks bs userName, 0 < bs →
      (∀ s ∈ stocks, stockRaises s = false) →
      (generateDigestChecked gen fetch cache hour dateStr stocks bs userName).isSome) := by
  refine ⟨?_, ?_, ?_, ?_, ?_⟩
  · unfold chunkBlocks
    rw [hfail]
  · unfold chunkBlocks
    rw [hfail]
    simp
  · intro s _ hs
    unfold fallbackBlock summarizeStockNews
    rw [hs]
  · intro s _
    unfold summarizeStockNews
    cases gen (stockNewsPrompt s) <;> rfl
  · intro fetch cache hour dateStr stocks bs userName hbs hclean
    unfold generateDigestChecked
    by_cases hsnil : stocks = []
    · simp [hsnil]
    · have hany : stocks.any stockRaises = false := by
        cases hcase : stocks.any stockRaises
        · rfl
        · obtain ⟨x, hxmem, hxr⟩ := List.any_eq_true.mp hcase
          rw [hclean x hxmem] at hxr
          exact absurd hxr (by simp)
      rw [if_neg hsnil, if_neg (Nat.pos_iff_ne_zero.mp hbs),
        if_neg (by rw [hany]; exact Bool.false_ne_true)]
      exact generateDigest_total gen fetch cache hour dateStr stocks bs userName hbs

theorem digest_fallback_isolates_failures_witness :
    chunkBlocks genNone [stockA, stockB] = [stockA, stockB].map (fallbackBlock genNone) ∧
    (chunkBlocks genNone [stockA, stockB]).length = [stockA, stockB].length ∧
    (∀ s ∈ [stockA, stockB], genNone (stockNewsPrompt s) = none →
      fallbackBlock genNone s
        = (stockHeader s ++ "\n\nError generating summary.\n") ++ "\n" ++ dash60 ++ "\n") ∧
    (∀ s ∈ [stockA, stockB], (summarizeStockNews genNone s).2 = 1) ∧
    (∀ fetch cache hour dateStr stocks bs userName, 0 < bs →
      (∀ s ∈ stocks, stockRaises s = false) →
      (generateDigestChecked genNone fetch cache hour dateStr stocks bs userName).isSome) :=
  digest_fallback_isolates_failures genNone [stockA, stockB] rfl

/-- C2 counterexample: the claim as stated fails — a complete digest is
*not* always returned past model-call failures.  `stockCrash` carries an
earnings dict with a truthy mean target price and a present-`None`
recommendation (producible by `fetch_earnings.py` line 88), so
`format_earnings_data` raises `AttributeError` while the chunk prompt is
built at `src/summarize.py` line 414, outside the `try` — the exception
escapes `generate_digest` under a failing and a succeeding model oracle
alike, before any model call is attempted. -/
theorem digest_fallback_isolates_failures_cex :
    formatEarningsData (some eCrash) = none ∧
    generateDigestChecked genNone fetchW none 9 "Monday" [stockCrash] 10 none = none ∧
    generateDigestChecked genUp fetchW none 9 "Monday" [stockCrash] 10 none = none :=
  ⟨by decide, by decide, by decide⟩

/-- C10: for the empty input list, `generate_digest` returns `""` before
building any header, greeting or market overview, with zero model calls
and zero quota admissions, and the market cache untouched. -/
theorem empty_input_digest_empty (gen : String → Option String)
    (fetch : Option ((ℚ × ℚ) × (ℚ × ℚ) × (ℚ × ℚ))) (cache : Option MarketSummary)
    (hour : ℕ) (dateStr : String) (bs : ℕ) (userName : Option String) :
    generateDigest gen fetch cache hour dateStr [] bs userName
      = some ⟨"", cache, 0, 0⟩ := by
  unfold generateDigest
  simp

/-- C5: if the first `generate_market_summary` call succeeds, it caches
its value and costs exactly one model call and one quota admission; any
later call with the populated cache returns the identical stored value
(all three percent-changes and the summary text) with zero model calls
and zero quota admissions — so the two calls together perform exactly
one model call and one admission. -/
theorem market_summary_cached_once (gen : String → Option String)
    (fetch : Option ((ℚ × ℚ) × (ℚ × ℚ) × (ℚ × ℚ))) (v : MarketSummary)
    (h : (generateMarketSummary gen fetch none).value = some v) :
    generateMarketSummary gen fetch none = ⟨some v, some v, 1, 1⟩ ∧
    (∀ (gen2 : String → Option String) fetch2,
      generateMarketSummary gen2 fetch2 (some v) = ⟨some v, some v, 0, 0⟩) := by
  refine ⟨?_, fun gen2 fetch2 => rfl⟩
  unfold generateMarketSummary at h ⊢
  rcases fetch with _ | ⟨⟨sp, sl⟩, ⟨qp, ql⟩, ⟨dp, dl⟩⟩
  · simp at h
  · dsimp only at h ⊢
    cases hg : gen (marketPrompt (pctChange sp sl) (pctChange qp ql) (pctChange dp dl)) with
    | none =>
      rw [hg] at h
      simp at h
    | some txt =>
      rw [hg] at h
      dsimp only at h ⊢
      obtain rfl := Option.some_inj.mp h
      rfl

theorem market_summary_cached_once_witness :
    generateMarketSummary genUp fetchW none = ⟨some msUp, some msUp, 1, 1⟩ ∧
    (∀ (gen2 : String → Option String) fetch2,
      generateMarketSummary gen2 fetch2 (some msUp) = ⟨some msUp, some msUp, 0, 0⟩) :=
  market_summary_cached_once genUp fetchW msUp (by decide)

/-- C6: `fmt_num` renders `None` as `"N/A"` regardless of the requested
format; a percentage value is multiplied by 100, printed with two
decimals and a trailing `%`; a currency value strictly above `1e9`
renders as `$X.XXB`, strictly above `1e6` as `$X.XXM`, otherwise as the
prefix, two decimals and suffix; and the three reference evaluations
hold: `fmt_num(2_500_000_000, '$') = "$2.50B"`,
`fmt_num(0.0734, is_pct=True) = "7.34%"`, `fmt_num(None, '$') = "N/A"`. -/
theorem fmtNum_formatting_rules :
    (∀ (pfx sfx : String) (isPct : Bool), fmtNum none pfx sfx isPct = "N/A") ∧
    (∀ (v : ℚ) (pfx sfx : String), fmtNum (some v) pfx sfx true = fmt2 (v * 100) ++ "%") ∧
    (∀ (v : ℚ) (sfx : String), (1000000000 : ℚ) < v →
      fmtNum (some v) "$" sfx false = "$" ++ fmt2 (v / 1000000000) ++ "B") ∧
    (∀ (v : ℚ) (sfx : String), v ≤ (1000000000 : ℚ) → (1000000 : ℚ) < v →
      fmtNum (some v) "$" sfx false = "$" ++ fmt2 (v / 1000000) ++ "M") ∧
    (∀ (v : ℚ) (sfx : String), v ≤ (1000000 : ℚ) →
      fmtNum (some v) "$" sfx false = "$" ++ fmt2 v ++ sfx) ∧
    fmtNum (some 2500000000) "$" "" false = "$2.50B" ∧
    fmtNum (some (734 / 10000)) "" "" true = "7.34%" ∧
    fmtNum none "$" "" false = "N/A" := by
  refine ⟨fun pfx sfx isPct => rfl, fun v pfx sfx => rfl, ?_, ?_, ?_,
    by decide, by decide, rfl⟩
  · intro v sfx h
    dsimp only [fmtNum]
    rw [if_neg (by simp), if_pos ⟨rfl, h⟩]
  · intro v sfx h9 h6
    dsimp only [fmtNum]
    rw [if_neg (by simp), if_neg (fun hc => absurd hc.2 (not_lt.mpr h9)),
      if_pos ⟨rfl, h6⟩]
  · intro v sfx h6
    dsimp only [fmtNum]
    rw [if_neg (by simp),
      if_neg (fun hc => absurd hc.2 (not_lt.mpr (le_trans h6 (by norm_num)))),
      if_neg (fun hc => absurd hc.2 (not_lt.mpr h6))]

theorem fmtNum_formatting_rules_witness :
    (1000000000 : ℚ) < 2500000000 ∧
    fmtNum (some 2500000000) "$" "" false
      = "$" ++ fmt2 ((2500000000 : ℚ) / 1000000000) ++ "B" :=
  ⟨by decide, fmtNum_formatting_rules.2.2.1 2500000000 "" (by decide)⟩

/-- C7 (amended): whenever `format_earnings_data` returns — it raises
`AttributeError` exactly when the guidance section is emitted (truthy
mean target) while the recommendation key is present with value `None` —
its sections appear in the fixed order core financials → balance sheet →
valuation → earnings performance → analyst guidance; but the first three
sections are *always* emitted (absent values rendered as `N/A`); only
the earnings-performance section (emitted iff reported or estimated EPS
is present and non-zero) and the analyst-guidance section (emitted iff
the mean target price is present and non-zero) are conditional. -/
theorem earnings_sections_order_amended (e : Earnings) :
    formatEarningsData (some e)
      = if truthyQ e.targetMeanPrice = true ∧ e.recommendation = some none then none
        else some (some (String.intercalate "\n\n"
            ([coreSection e, balanceSection e, valuationSection e]
              ++ (if truthyQ e.reportedEps || truthyQ e.estimatedEps
                  then [perfSection e] else [])
              ++ (if truthyQ e.targetMeanPrice then [guidanceSectionText e] else [])))) := by
  unfold formatEarningsData
  by_cases hT : truthyQ e.targetMeanPrice
  · cases hR : e.recommendation with
    | none =>
      rw [if_neg (by simp [hR])]
      by_cases hP : truthyQ e.reportedEps || truthyQ e.estimatedEps <;>
        simp [guidanceSection, recommendationUpper, guidanceSectionText, hR, hT, hP,
          List.append_assoc]
    | some r =>
      cases r with
      | none =>
        rw [if_pos ⟨hT, rfl⟩]
        simp [guidanceSection, recommendationUpper, hR, hT]
      | some str =>
        rw [if_neg (by simp [hR])]
        by_cases hP : truthyQ e.reportedEps || truthyQ e.estimatedEps <;>
          simp [guidanceSection, recommendationUpper, guidanceSectionText, hR, hT, hP,
            List.append_assoc]
  · rw [if_neg (fun hc => hT hc.1)]
    by_cases hP : truthyQ e.reportedEps || truthyQ e.estimatedEps <;> simp [hT, hP]

set_option maxRecDepth 8000

/-- C7 counterexample: `emptyEarnings` is a non-empty earnings dict in
which every constituent value of every section is absent, so under the
claim the output would contain no section at all (the join of an empty
section list, i.e. `""`).  Instead `format_earnings_data` emits the core
financials, balance sheet and valuation sections with every value
rendered `N/A`. -/
theorem earnings_sections_order_cex :
    formatEarningsData (some emptyEarnings)
      = some (some "CORE FINANCIALS:\n- Revenue: N/A (YoY Growth: N/A)\n- Net Income: N/A\n- EPS: N/A (Forward: N/A)\n- Earnings Growth: N/A\n- Gross Margin: N/A\n- Operating Margin: N/A\n- Net Margin: N/A\n- EBITDA Margin: N/A\n- Free Cash Flow: N/A\n- Operating Cash Flow: N/A\n\nBALANCE SHEET:\n- Total Cash: N/A\n- Total Debt: N/A\n- Current Ratio: N/A\n- Quick Ratio: N/A\n\nVALUATION:\n- Market Cap: N/A\n- P/E Ratio: N/A (Forward: N/A)\n- P/S Ratio: N/A\n- Price-to-Book: N/A\n- EV/Revenue: N/A\n- EV/EBITDA: N/A\n- Revenue per Share: N/A") ∧
    formatEarningsData (some emptyEarnings) ≠ some (some "") := by
  refine ⟨by decide, by decide⟩

theorem startsWithL_append (pat b : List Char) : startsWithL pat (pat ++ b) = true := by
  induction pat with
  | nil => rfl
  | cons p ps ih => simp [startsWithL, ih]

theorem startsWithL_exists {pat s : List Char} (h : startsWithL pat s = true) :
    ∃ t, s = pat ++ t := by
  induction pat generalizing s with
  | nil => exact ⟨s, rfl⟩
  | cons p ps ih =>
    cases s with
    | nil => simp [startsWithL] at h
    | cons c cs =>
      simp only [startsWithL, Bool.and_eq_true, decide_eq_true_eq] at h
      obtain ⟨rfl, h2⟩ := h
      obtain ⟨t, rfl⟩ := ih h2
      exact ⟨t, rfl⟩

theorem containsL_cons_of_tail {pat : List Char} (c : Char) {rest : List Char}
    (h : containsL pat rest = true) : containsL pat (c :: rest) = true := by
  simp [containsL, h]

theorem containsL_self_append (pat v : List Char) : containsL pat (pat ++ v) = true := by
  cases pat with
  | nil =>
    cases v with
    | nil => rfl
    | cons c cs => simp [containsL, startsWithL]
  | cons p ps =>
    have hs := startsWithL_append (p :: ps) v
    simp only [List.cons_append] at hs ⊢
    simp [containsL, hs]

theorem containsL_of_append (pat u v : List Char) :
    containsL pat (u ++ (pat ++ v)) = true := by
  induction u with
  | nil => simpa using containsL_self_append pat v
  | cons x u' ih => exact containsL_cons_of_tail x ih

theorem containsL_tail_false {pat : List Char} {c : Char} {rest : List Char}
    (h : containsL pat (c :: rest) = false) : containsL pat rest = false := by
  simp only [containsL, Bool.or_eq_false_iff] at h
  exact h.2

theorem startsWithL_false_of_containsL_false {pat : List Char} {c : Char} {rest : List Char}
    (h : containsL pat (c :: rest) = false) : startsWithL pat (c :: rest) = false := by
  simp only [containsL, Bool.or_eq_false_iff] at h
  exact h.1

theorem replaceAllL_no_occurrence (pat repl : List Char) :
    ∀ s : List Char, containsL pat s = false → replaceAllL pat repl s = s := by
  intro s
  induction s with
  | nil => intro _; rw [replaceAllL]
  | cons c rest ih =>
    intro h
    rw [replaceAllL]
    rw [dif_neg (by
      rintro ⟨-, hstart⟩
      rw [startsWithL_false_of_containsL_false h] at hstart
      exact Bool.false_ne_true hstart)]
    rw [ih (containsL_tail_false h)]

theorem startsWithL_head_contains_dropLast {pat : List Char} (hp : pat ≠ [])
    (x : Char) (a' b : List Char)
    (hs : startsWithL pat ((x :: a') ++ (pat ++ b)) = true) :
    containsL pat ((x :: a') ++ pat.dropLast) = true := by
  obtain ⟨t, ht⟩ := startsWithL_exists hs
  have hlen : pat.length ≤ ((x :: a') ++ pat.dropLast).length := by
    simp only [List.length_append, List.length_cons, List.length_dropLast]
    have : 0 < pat.length := List.length_pos.mpr hp
    omega
  have hdecomp : (x :: a') ++ (pat ++ b)
      = ((x :: a') ++ pat.dropLast) ++ ([pat.getLast hp] ++ b) := by
    calc (x :: a') ++ (pat ++ b)
        = (x :: a') ++ ((pat.dropLast ++ [pat.getLast hp]) ++ b) := by
          rw [List.dropLast_append_getLast hp]
      _ = ((x :: a') ++ pat.dropLast) ++ ([pat.getLast hp] ++ b) := by
          simp [List.append_assoc]
  have hpat : pat = ((x :: a') ++ pat.dropLast).take pat.length := by
    have h1 : ((x :: a') ++ (pat ++ b)).take pat.length = pat := by
      rw [ht]
      exact List.take_left pat t
    rw [hdecomp] at h1
    rw [List.take_append_of_le_length hlen] at h1
    exact h1.symm
  have hsplit : (x :: a') ++ pat.dropLast
      = pat ++ (((x :: a') ++ pat.dropLast).drop pat.length) := by
    conv_lhs => rw [← List.take_append_drop pat.length ((x :: a') ++ pat.dropLast)]
    rw [← hpat]
  rw [hsplit]
  simpa using containsL_of_append pat [] (((x :: a') ++ pat.dropLast).drop pat.length)

theorem replaceAllL_occurrence (pat repl : List Char) (hp : pat ≠ []) :
    ∀ a b : List Char, containsL pat (a ++ pat.dropLast) = false →
      replaceAllL pat repl (a ++ (pat ++ b))
        = a ++ (repl ++ replaceAllL pat repl b) := by
  intro a
  induction a with
  | nil =>
    intro b _
    rw [List.nil_append, List.nil_append]
    cases pat with
    | nil => exact absurd rfl hp
    | cons p ps =>
      rw [List.cons_append, replaceAllL]
      rw [dif_pos ⟨List.cons_ne_nil p ps, by
        rw [← List.cons_append]
        exact startsWithL_append (p :: ps) b⟩]
      congr 1
      rw [← List.cons_append, List.drop_left (p :: ps) b]
  | cons x a' ih =>
    intro b h
    rw [List.cons_append, replaceAllL]
    rw [dif_neg (by
      rintro ⟨-, hstart⟩
      rw [← List.cons_append] at hstart
      have hcon := startsWithL_head_contains_dropLast hp x a' b hstart
      rw [h] at hcon
      exact Bool.false_ne_true hcon)]
    rw [List.cons_append]
    congr 1
    have h2 : containsL pat (x :: (a' ++ pat.dropLast)) = false := by
      simpa only [List.cons_append] using h
    exact ih b (containsL_tail_false h2)

/-- C9: the final normalization pass of digest assembly rewrites every
occurrence of the model's literal `---` inter-stock separator convention
(the separator line followed by a blank line and the next stock's `**`
header) into the canonical rule of sixty `-` characters, and leaves all
other text unchanged: text without an occurrence is returned verbatim,
and around each occurrence the preceding text survives intact while the
`---` becomes the sixty-dash rule (the `\n\n**` context kept) and
scanning continues on the remainder. -/
theorem separator_normalization_rewrites :
    (∀ s : List Char, containsL sepPat s = false → replaceAllL sepPat sepRepl s = s) ∧
    (∀ a b : List Char, containsL sepPat (a ++ sepPat.dropLast) = false →
      replaceAllL sepPat sepRepl (a ++ (sepPat ++ b))
        = a ++ (sepRepl ++ replaceAllL sepPat sepRepl b)) ∧
    sepPat = ('-' :: '-' :: '-' :: '\n' :: '\n' :: '*' :: '*' :: []) ∧
    sepRepl = List.replicate 60 '-' ++ ('\n' :: '\n' :: '*' :: '*' :: []) ∧
    (∀ s : String, normalizeSep s = String.mk (replaceAllL sepPat sepRepl s.data)) :=
  ⟨replaceAllL_no_occurrence sepPat sepRepl,
    replaceAllL_occurrence sepPat sepRepl (by decide),
    by decide, by decide, fun s => rfl⟩

theorem separator_normalization_rewrites_witness :
    containsL sepPat ("A\n".data ++ sepPat.dropLast) = false ∧
    replaceAllL sepPat sepRepl ("A\n".data ++ (sepPat ++ "**B".data))
      = "A\n".data ++ (sepRepl ++ replaceAllL sepPat sepRepl "**B".data) :=
  ⟨by decide, separator_normalization_rewrites.2.1 "A\n".data "**B".data (by decide)⟩

theorem pruneWindow_sorted {c : ℚ} {l : List ℚ} (hs : l.Sorted (· ≤ ·)) :
    (pruneWindow c l).Sorted (· ≤ ·) :=
  List.Pairwise.sublist (List.dropWhile_sublist _) hs

theorem mem_pruneWindow {c x : ℚ} {l : List ℚ} (hx : x ∈ pruneWindow c l) : x ∈ l :=
  (List.dropWhile_sublist _).subset hx

theorem mem_pruneWindow_ge {c : ℚ} {l : List ℚ} (hs : l.Sorted (· ≤ ·)) {x : ℚ}
    (hx : x ∈ pruneWindow c l) : c ≤ x := by
  induction l with
  | nil => simp [pruneWindow] at hx
  | cons a t ih =>
    rw [List.sorted_cons] at hs
    unfold pruneWindow at hx
    rw [List.dropWhile_cons] at hx
    by_cases hac : a < c
    · rw [if_pos (by simpa using hac)] at hx
      exact ih hs.2 hx
    · rw [if_neg (by simpa using hac)] at hx
      rcases List.mem_cons.mp hx with rfl | hxt
      · exact le_of_not_lt hac
      · exact le_trans (le_of_not_lt hac) (hs.1 x hxt)

theorem sorted_append_singleton {l : List ℚ} {a : ℚ} (hs : l.Sorted (· ≤ ·))
    (hb : ∀ x ∈ l, x ≤ a) : (l ++ [a]).Sorted (· ≤ ·) := by
  rw [List.Sorted, List.pairwise_append]
  exact ⟨hs, List.pairwise_singleton _ a, fun x hx y hy => by
    rw [List.mem_singleton.mp hy]; exact hb x hx⟩

/-- C3 (amended): provided `R >= 2`, every `wait_if_needed` call returns
(none is dropped or skipped) and records itself — the daily counter is
incremented and a timestamp is appended to the window; and whenever the
window pruned at entry holds at least `R - 1` timestamps, the per-minute
sleep is exactly `60 - (now - oldest)` when that quantity is positive
(the total blocking time when the daily branch is not taken), after which
the window is re-pruned against the new current time before the call is
recorded; when the quantity is not positive, and likewise when the window
is below the threshold, there is no per-minute sleep and the entry-pruned
window plus the new timestamp is stored as is.  With `R <= 1` the
per-minute check indexes an empty deque and the call raises instead (see
the counterexample). -/
theorem rate_limiter_minute_wait_amended (cfg : RLConfig) (st : QuotaState) (t0 : ℚ)
    (hrpm : 2 ≤ cfg.rpm) :
    ∃ r : WaitResult, waitIfNeeded cfg st t0 = some r ∧
      r.state.dailyCount
        = (if cfg.rpd ≤ countAfterReset st t0 then 0 else countAfterReset st t0) + 1 ∧
      (∃ pre ts, r.state.requestTimes = pre ++ [ts]) ∧
      ((entryWindow st t0).length < cfg.rpm - 1 →
        r.minuteWait = 0 ∧ r.state.requestTimes = entryWindow st t0 ++ [t0]) ∧
      (∀ oldest rest, entryWindow st t0 = oldest :: rest →
        cfg.rpm - 1 ≤ (entryWindow st t0).length →
        ((0 < 60 - (t0 - oldest) →
          r.minuteWait = 60 - (t0 - oldest) ∧
          r.state.requestTimes
            = pruneWindow (r.endTime - 60) (entryWindow st t0) ++ [r.endTime] ∧
          (countAfterReset st t0 < cfg.rpd →
            r.endTime = t0 + (60 - (t0 - oldest)))) ∧
         (60 - (t0 - oldest) ≤ 0 →
           r.minuteWait = 0 ∧ r.state.requestTimes = entryWindow st t0 ++ [t0]))) := by
  simp only [waitIfNeeded]
  cases hWe : entryWindow st t0 with
  | nil =>
    rw [if_neg (by simp; omega)]
    refine ⟨_, rfl, rfl, ⟨[], t0, rfl⟩, fun _ => ⟨rfl, rfl⟩, ?_⟩
    intro oldest rest heq
    exact absurd heq (by simp)
  | cons oldest rest =>
    by_cases hlen : cfg.rpm - 1 ≤ (oldest :: rest).length
    · rw [if_pos hlen]
      dsimp only
      by_cases hpos : 0 < 60 - (t0 - oldest)
      · rw [if_pos hpos]
        refine ⟨_, rfl, rfl, ⟨_, _, rfl⟩, fun hlt => absurd hlen (by omega), ?_⟩
        intro o' r' heq _
        obtain ⟨rfl, rfl⟩ : o' = oldest ∧ r' = rest := by
          injection heq with h1 h2
          exact ⟨h1.symm, h2.symm⟩
        refine ⟨fun _ => ⟨rfl, rfl, fun hnd => ?_⟩, fun hneg => absurd hpos (not_lt.mpr hneg)⟩
        rw [if_neg (not_le.mpr hnd)]
        ring
      · rw [if_neg hpos]
        refine ⟨_, rfl, rfl, ⟨_, _, rfl⟩, fun hlt => absurd hlen (by omega), ?_⟩
        intro o' r' heq _
        obtain ⟨rfl, rfl⟩ : o' = oldest ∧ r' = rest := by
          injection heq with h1 h2
          exact ⟨h1.symm, h2.symm⟩
        exact ⟨fun hp => absurd hp hpos, fun _ => ⟨rfl, rfl⟩⟩
    · rw [if_neg hlen]
      refine ⟨_, rfl, rfl, ⟨_, _, rfl⟩, fun _ => ⟨rfl, rfl⟩, ?_⟩
      intro o' r' heq hlen'
      obtain ⟨rfl, rfl⟩ : o' = oldest ∧ r' = rest := by
        injection heq with h1 h2
        exact ⟨h1.symm, h2.symm⟩
      exact absurd hlen' hlen

theorem rate_limiter_minute_wait_amended_witness :
    ∃ r : WaitResult, waitIfNeeded ⟨1000, 999999⟩ ⟨[0], 1, 86400⟩ 30 = some r ∧
      r.state.dailyCount
        = (if (999999 : ℕ) ≤ countAfterReset ⟨[0], 1, 86400⟩ 30
           then 0 else countAfterReset ⟨[0], 1, 86400⟩ 30) + 1 ∧
      (∃ pre ts, r.state.requestTimes = pre ++ [ts]) ∧
      ((entryWindow ⟨[0], 1, 86400⟩ 30).length < (1000 : ℕ) - 1 →
        r.minuteWait = 0 ∧
        r.state.requestTimes = entryWindow ⟨[0], 1, 86400⟩ 30 ++ [30]) ∧
      (∀ oldest rest, entryWindow ⟨[0], 1, 86400⟩ 30 = oldest :: rest →
        (1000 : ℕ) - 1 ≤ (entryWindow ⟨[0], 1, 86400⟩ 30).length →
        ((0 < 60 - (30 - oldest) →
          r.minuteWait = 60 - (30 - oldest) ∧
          r.state.requestTimes
            = pruneWindow (r.endTime - 60) (entryWindow ⟨[0], 1, 86400⟩ 30) ++ [r.endTime] ∧
          (countAfterReset ⟨[0], 1, 86400⟩ 30 < 999999 →
            r.endTime = 30 + (60 - (30 - oldest)))) ∧
         (60 - (30 - oldest) ≤ 0 →
           r.minuteWait = 0 ∧
           r.state.requestTimes = entryWindow ⟨[0], 1, 86400⟩ 30 ++ [30]))) :=
  rate_limiter_minute_wait_amended ⟨1000, 999999⟩ ⟨[0], 1, 86400⟩ 30 (by decide)

/-- C3 counterexample: the claim as stated fails — no call is supposed to
be dropped, yet with the positive configuration `R = 1` the very first
`wait_if_needed` on a fresh limiter enters the per-minute branch with an
empty deque (`len([]) >= 0`) and `self.request_times[0]` raises
`IndexError`: the call neither proceeds nor is recorded. -/
theorem rate_limiter_minute_wait_cex :
    waitIfNeeded ⟨1, 999999⟩ (initialQuotaState 0) 0 = none := by decide

/-- C4 (amended): for any reachable-state shape (sorted window, entries
no later than the entry time), after a `wait_if_needed` call in which the
daily-limit sleep branch is *not* taken, the stored window holds no entry
older than 60 seconds relative to the current time, it stays sorted and
bounded by the current time, and the daily counter behaves as claimed:
within a day (`now < reset_deadline`) it increases by exactly one with
the deadline unchanged, and it resets to zero (then records the call,
leaving 1) exactly when `now >= reset_deadline`, the deadline moving to
`now + 24h`.  When the daily sleep branch *is* taken the age invariant
fails on the code (see the counterexample): the pre-sleep `now` is what
gets recorded. -/
theorem quota_window_invariant_amended (cfg : RLConfig) (st : QuotaState) (t0 : ℚ)
    (r : WaitResult)
    (hsorted : st.requestTimes.Sorted (· ≤ ·))
    (hbound : ∀ x ∈ st.requestTimes, x ≤ t0)
    (hnd : countAfterReset st t0 < cfg.rpd)
    (hr : waitIfNeeded cfg st t0 = some r) :
    (∀ x ∈ r.state.requestTimes, r.endTime - x ≤ 60) ∧
    r.state.requestTimes.Sorted (· ≤ ·) ∧
    (∀ x ∈ r.state.requestTimes, x ≤ r.endTime) ∧
    (t0 < st.dailyResetTime →
      r.state.dailyCount = st.dailyCount + 1 ∧
      r.state.dailyResetTime = st.dailyResetTime) ∧
    (st.dailyResetTime ≤ t0 →
      r.state.dailyCount = 1 ∧ r.state.dailyResetTime = t0 + 86400) := by
  have hWs : (entryWindow st t0).Sorted (· ≤ ·) := pruneWindow_sorted hsorted
  have hWb : ∀ x ∈ entryWindow st t0, x ≤ t0 := fun x hx => hbound x (mem_pruneWindow hx)
  have hWge : ∀ x ∈ entryWindow st t0, t0 - 60 ≤ x := fun x hx => mem_pruneWindow_ge hsorted hx
  have hcountd : countAfterReset st t0 = if st.dailyResetTime ≤ t0 then 0 else st.dailyCount :=
    rfl
  simp only [waitIfNeeded, if_neg (not_le.mpr hnd)] at hr
  cases hWe : entryWindow st t0 with
  | nil =>
    rw [hWe] at hr
    by_cases hlen : cfg.rpm - 1 ≤ ([] : List ℚ).length
    · rw [if_pos hlen] at hr
      exact absurd hr (by simp)
    · rw [if_neg hlen] at hr
      obtain rfl := (Option.some_inj.mp hr).symm
      refine ⟨by simp, by simp, by simp, fun h4 => ?_, fun h5 => ?_⟩
      · rw [hcountd, if_neg (not_le.mpr h4), if_neg (not_le.mpr h4)]
        exact ⟨rfl, rfl⟩
      · rw [hcountd, if_pos h5, if_pos h5]
        exact ⟨rfl, rfl⟩
  | cons oldest rest =>
    rw [hWe] at hr
    have hWs' : (oldest :: rest).Sorted (· ≤ ·) := hWe ▸ hWs
    have hWb' : ∀ x ∈ oldest :: rest, x ≤ t0 := hWe ▸ hWb
    have hWge' : ∀ x ∈ oldest :: rest, t0 - 60 ≤ x := hWe ▸ hWge
    by_cases hlen : cfg.rpm - 1 ≤ (oldest :: rest).length
    · rw [if_pos hlen] at hr
      dsimp only at hr
      by_cases hpos : 0 < 60 - (t0 - oldest)
      · rw [if_pos hpos] at hr
        obtain rfl := (Option.some_inj.mp hr).symm
        have hend : t0 < t0 + 0 + (60 - (t0 - oldest)) := by linarith
        have hW2s : (pruneWindow (t0 + 0 + (60 - (t0 - oldest)) - 60)
            (oldest :: rest)).Sorted (· ≤ ·) := pruneWindow_sorted hWs'
        refine ⟨?_, ?_, ?_, fun h4 => ?_, fun h5 => ?_⟩
        · intro x hx
          dsimp only at hx ⊢
          rcases List.mem_append.mp hx with hx1 | hx2
          · have := mem_pruneWindow_ge hWs' hx1
            linarith
          · rw [List.mem_singleton.mp hx2]
            norm_num
        · exact sorted_append_singleton hW2s (fun x hx =>
            le_of_lt (lt_of_le_of_lt (hWb' x (mem_pruneWindow hx)) hend))
        · intro x hx
          dsimp only at hx ⊢
          rcases List.mem_append.mp hx with hx1 | hx2
          · exact le_of_lt (lt_of_le_of_lt (hWb' x (mem_pruneWindow hx1)) hend)
          · exact le_of_eq (List.mem_singleton.mp hx2)
        · rw [hcountd, if_neg (not_le.mpr h4), if_neg (not_le.mpr h4)]
          exact ⟨rfl, rfl⟩
        · rw [hcountd, if_pos h5, if_pos h5]
          exact ⟨rfl, rfl⟩
      · rw [if_neg hpos] at hr
        obtain rfl := (Option.some_inj.mp hr).symm
        refine ⟨?_, sorted_append_singleton hWs' (fun x hx => hWb' x hx), ?_,
          fun h4 => ?_, fun h5 => ?_⟩
        · intro x hx
          dsimp only at hx ⊢
          rcases List.mem_append.mp hx with hx1 | hx2
          · have := hWge' x hx1
            linarith
          · rw [List.mem_singleton.mp hx2]
            norm_num
        · intro x hx
          dsimp only at hx ⊢
          rcases List.mem_append.mp hx with hx1 | hx2
          · have := hWb' x hx1
            linarith
          · rw [List.mem_singleton.mp hx2]
            norm_num
        · rw [hcountd, if_neg (not_le.mpr h4), if_neg (not_le.mpr h4)]
          exact ⟨rfl, rfl⟩
        · rw [hcountd, if_pos h5, if_pos h5]
          exact ⟨rfl, rfl⟩
    · rw [if_neg hlen] at hr
      obtain rfl := (Option.some_inj.mp hr).symm
      refine ⟨?_, sorted_append_singleton hWs' (fun x hx => hWb' x hx), ?_,
        fun h4 => ?_, fun h5 => ?_⟩
      · intro x hx
        dsimp only at hx ⊢
        rcases List.mem_append.mp hx with hx1 | hx2
        · have := hWge' x hx1
          linarith
        · rw [List.mem_singleton.mp hx2]
          norm_num
      · intro x hx
        dsimp only at hx ⊢
        rcases List.mem_append.mp hx with hx1 | hx2
        · have := hWb' x hx1
          linarith
        · rw [List.mem_singleton.mp hx2]
          norm_num
      · rw [hcountd, if_neg (not_le.mpr h4), if_neg (not_le.mpr h4)]
        exact ⟨rfl, rfl⟩
      · rw [hcountd, if_pos h5, if_pos h5]
        exact ⟨rfl, rfl⟩

theorem quota_window_invariant_amended_witness :
    (∀ x ∈ (⟨⟨[(0 : ℚ)], 1, 86400⟩, 0, 0, 0⟩ : WaitResult).state.requestTimes,
      (⟨⟨[(0 : ℚ)], 1, 86400⟩, 0, 0, 0⟩ : WaitResult).endTime - x ≤ 60) ∧
    (⟨⟨[(0 : ℚ)], 1, 86400⟩, 0, 0, 0⟩ : WaitResult).state.requestTimes.Sorted (· ≤ ·) ∧
    (∀ x ∈ (⟨⟨[(0 : ℚ)], 1, 86400⟩, 0, 0, 0⟩ : WaitResult).state.requestTimes,
      x ≤ (⟨⟨[(0 : ℚ)], 1, 86400⟩, 0, 0, 0⟩ : WaitResult).endTime) ∧
    ((0 : ℚ) < (initialQuotaState 0).dailyResetTime →
      (⟨⟨[(0 : ℚ)], 1, 86400⟩, 0, 0, 0⟩ : WaitResult).state.dailyCount
        = (initialQuotaState 0).dailyCount + 1 ∧
      (⟨⟨[(0 : ℚ)], 1, 86400⟩, 0, 0, 0⟩ : WaitResult).state.dailyResetTime
        = (initialQuotaState 0).dailyResetTime) ∧
    ((initialQuotaState 0).dailyResetTime ≤ (0 : ℚ) →
      (⟨⟨[(0 : ℚ)], 1, 86400⟩, 0, 0, 0⟩ : WaitResult).state.dailyCount = 1 ∧
      (⟨⟨[(0 : ℚ)], 1, 86400⟩, 0, 0, 0⟩ : WaitResult).state.dailyResetTime
        = (0 : ℚ) + 86400) :=
  quota_window_invariant_amended ⟨1000, 999999⟩ (initialQuotaState 0) 0
    ⟨⟨[0], 1, 86400⟩, 0, 0, 0⟩ (by simp [initialQuotaState])
    (by simp [initialQuotaState]) (by decide) (by decide)

/-- C4 counterexample: the invariant fails as stated once the daily-limit
sleep branch runs.  With `rpm = 1000`, `rpd = 1`, a fresh limiter built at
time 0 admits a first call at time 0; the second call entering at time
86300 sleeps 100 s until the deadline 86400, then records the *stale*
pre-sleep timestamp 86300 — so immediately after the call returns at
current time 86400 the window `[86300]` holds an entry 100 s old,
strictly older than 60 seconds. -/
theorem quota_window_invariant_cex :
    waitIfNeeded ⟨1000, 1⟩ (initialQuotaState 0) 0
      = some ⟨⟨[0], 1, 86400⟩, 0, 0, 0⟩ ∧
    waitIfNeeded ⟨1000, 1⟩ ⟨[0], 1, 86400⟩ 86300
      = some ⟨⟨[86300], 1, 172800⟩, 86400, 100, 0⟩ ∧
    ¬ ((86400 : ℚ) - 86300 ≤ 60) :=
  ⟨by decide, by decide, by decide⟩

/-- C8 (amended): `get_stats` is genuinely read-only — it returns the
count of stored timestamps strictly within the trailing 60 seconds, the
daily count and both configured limits, and performs no mutation at all:
the stored window is returned unchanged, never pruned or shortened. -/
theorem get_stats_readonly_amended (cfg : RLConfig) (st : QuotaState) (now : ℚ) :
    (getStats cfg st now).2 = st ∧
    ((getStats cfg st now).2).requestTimes.length = st.requestTimes.length ∧
    (getStats cfg st now).1
      = ⟨(st.requestTimes.filter (fun t => decide (now - 60 < t))).length,
         st.dailyCount, cfg.rpd, cfg.rpm⟩ :=
  ⟨rfl, rfl, rfl⟩

/-- C8 counterexample: the claim asserts that for some quota state with
entries older than 60 seconds a `get_stats` call removes them, leaving a
strictly shorter stored window.  No such state exists: the method never
mutates the window. -/
theorem get_stats_readonly_cex :
    ¬ ∃ (cfg : RLConfig) (st : QuotaState) (now : ℚ),
      ((getStats cfg st now).2).requestTimes.length < st.requestTimes.length := by
  rintro ⟨cfg, st, now, h⟩
  simp [getStats] at h
